import Mathlib

/-!
Verification of the grid-domain windowing and staggered-grid differencing
subsystem of `py_eddy_tracker/grid/__init__.py` (class `PyEddyTracker`).

The Python source is shallowly embedded:
* Python slices (with negative stops) and `set_index_padding` are modelled
  over `Int` index pairs with the exact clamping semantics of CPython.
* numpy 2-D arrays carrying exact values are modelled by `NpArr`
  (row-major flat data plus an explicit shape list), with `squeeze`,
  basic slicing and 2-D broadcasting translated from numpy semantics;
  array elements are exact rationals (or the extended type `EF` below).
* IEEE special values (inf / -inf / NaN) that numpy produces on division
  by zero and `0 * inf` are modelled by the extended scalar type `EF`,
  exact on finite values.
* The trigonometric parts (`haversine_dist`, `get_aviso_f_pm_pn`, `uspd`)
  are modelled over the real numbers.
-/

set_option autoImplicit false

namespace PET

/-! ### Python slice semantics

A Python slice `slice(a, b)` with integer (possibly negative) bounds,
applied to an axis of length `n`.  `pyIdx` resolves one bound exactly as
CPython does for slices: negative values count from the end and are
clamped below at `0`; nonnegative values are clamped above at `n`. -/

def pyIdx (n : Nat) (i : Int) : Nat :=
  if i < 0 then ((n : Int) + i).toNat else min i.toNat n

/-- Length of the selection `x[a:b]` on an axis of length `n`. -/
def pySliceLen (s : Int × Int) (n : Nat) : Nat :=
  pyIdx n s.2 - pyIdx n s.1

/-! ### `set_index_padding` (grid/__init__.py lines 182-221)

The method stores, for each axis, the padded slice (`slice_j_pad`,
`slice_i_pad`) and the fixed-offset unpad slice (`slice_j_unpad = slice(pad, -pad)`,
`slice_i_unpad = slice(abs(pad), -abs(pad))`).  The core window slices are
assumed concrete (`start`/`stop` integers, the non-`None` case). -/

structure PadIndices where
  slice_j_pad : Int × Int
  slice_i_pad : Int × Int
  slice_j_unpad : Int × Int
  slice_i_unpad : Int × Int
deriving Repr, DecidableEq

/-- `get_str(start, pad) = max(0, start - pad)` (source line 198). -/
def get_str (start : Int) (pad : Int) : Int := max 0 (start - pad)

/-- `get_end(theend, shape, pad) = min(shape, theend + pad)` (source line 209),
for a concrete (non-`None`) `theend`. -/
def get_end (theend : Int) (shape : Nat) (pad : Int) : Int :=
  min (shape : Int) (theend + pad)

/-- Translation of `set_index_padding` for concrete core slices
`slice_j = (j0, j1)`, `slice_i = (i0, i1)` on a grid of shape `(ny, nx)`.
When `zero_crossing` is set the column pad sign is inverted
(source lines 216-217) and the column unpad slice uses `abs(pad)`. -/
def set_index_padding (zero_crossing : Bool) (slice_j slice_i : Int × Int)
    (ny nx : Nat) (pad : Nat) : PadIndices :=
  let jp0 := get_str slice_j.1 pad
  let jp1 := get_end slice_j.2 ny pad
  let padi : Int := if zero_crossing then -(pad : Int) else pad
  let ip0 := get_str slice_i.1 padi
  let ip1 := get_end slice_i.2 nx padi
  { slice_j_pad := (jp0, jp1)
    slice_i_pad := (ip0, ip1)
    slice_j_unpad := ((pad : Int), -(pad : Int))
    slice_i_unpad := ((padi.natAbs : Int), -((padi.natAbs : Int))) }

/-- Shape of an array built on the padded window: each padded slice applied
to the corresponding grid axis. -/
def padded_window_shape (p : PadIndices) (ny nx : Nat) : Nat × Nat :=
  (pySliceLen p.slice_j_pad ny, pySliceLen p.slice_i_pad nx)

/-- Shape obtained by applying the unpad slices to an array shaped like the
padded window. -/
def unpadded_shape (p : PadIndices) (ny nx : Nat) : Nat × Nat :=
  let s := padded_window_shape p ny nx
  (pySliceLen p.slice_j_unpad s.1, pySliceLen p.slice_i_unpad s.2)

/-- Shape of the core (unpadded) window on the grid. -/
def core_window_shape (slice_j slice_i : Int × Int) (ny nx : Nat) : Nat × Nat :=
  (pySliceLen slice_j ny, pySliceLen slice_i nx)

/-- Claim C1 (counterexample): the invariant fails on a 10 by 10 grid with
`pad = 2` once the core window touches the grid boundary so that the start
padding is clamped (`slice_j = (0, 5)` gives a padded window of 7 rows, and
stripping the fixed `slice(2, -2)` leaves 3 rows, not the core's 5); it also
fails for `pad = 0`, where `slice(0, -0) = slice(0, 0)` selects nothing.
Both grids satisfy the claim's size condition (rows and columns at least
`2 * pad`). -/
theorem C1_counterexample :
    (unpadded_shape (set_index_padding false (0, 5) (2, 8) 10 10 2) 10 10 ≠
      core_window_shape (0, 5) (2, 8) 10 10) ∧
    (unpadded_shape (set_index_padding false (2, 8) (2, 8) 10 10 0) 10 10 ≠
      core_window_shape (2, 8) (2, 8) 10 10) := by
  decide

/-- One axis of the C1 invariant: stripping `slice(pad, -pad)` from the
padded axis length recovers the core axis length, provided `pad ≥ 1` and the
core range keeps a margin of `pad` cells from both ends of the axis. -/
theorem unpad_axis (n pad a b : Nat) (hpad : 1 ≤ pad) (h0 : pad ≤ a) (hab : a ≤ b)
    (h1 : b + pad ≤ n) :
    pySliceLen ((pad : Int), -(pad : Int))
        (pySliceLen (get_str a pad, get_end b n pad) n) =
      pySliceLen ((a : Int), (b : Int)) n := by
  unfold pySliceLen pyIdx get_str get_end
  split_ifs <;> omega

theorem set_index_padding_false (slice_j slice_i : Int × Int) (ny nx pad : Nat) :
    set_index_padding false slice_j slice_i ny nx pad =
      { slice_j_pad := (get_str slice_j.1 pad, get_end slice_j.2 ny pad)
        slice_i_pad := (get_str slice_i.1 pad, get_end slice_i.2 nx pad)
        slice_j_unpad := ((pad : Int), -(pad : Int))
        slice_i_unpad := ((pad : Int), -(pad : Int)) } := by
  simp [set_index_padding]

/-- Claim C1 (amended): for every non-wrapping window and every pad value
that is at least 1, on a grid where the core window keeps a margin of at
least `pad` cells from every grid edge (so that no clamping occurs),
applying the unpad slices produced by `set_index_padding` to an array
shaped like the padded window yields exactly the shape of the core window.
The original claim's boundary-clamping case and the `pad = 0` case are
excluded: both are refuted by `C1_counterexample`. -/
theorem C1_unpad_recovers_core (ny nx pad j0 j1 i0 i1 : Nat)
    (hpad : 1 ≤ pad)
    (hj0 : pad ≤ j0) (hj : j0 ≤ j1) (hj1 : j1 + pad ≤ ny)
    (hi0 : pad ≤ i0) (hi : i0 ≤ i1) (hi1 : i1 + pad ≤ nx) :
    unpadded_shape
        (set_index_padding false ((j0 : Int), (j1 : Int)) ((i0 : Int), (i1 : Int)) ny nx pad)
        ny nx =
      core_window_shape ((j0 : Int), (j1 : Int)) ((i0 : Int), (i1 : Int)) ny nx := by
  rw [set_index_padding_false]
  simp only [unpadded_shape, padded_window_shape, core_window_shape, Prod.mk.injEq]
  exact ⟨unpad_axis ny pad j0 j1 hpad hj0 hj hj1, unpad_axis nx pad i0 i1 hpad hi0 hi hi1⟩

/-- Witness for `C1_unpad_recovers_core` at `pad = 2`, window rows `(3, 7)`,
columns `(4, 9)` on a 12 by 12 grid. -/
theorem C1_unpad_recovers_core_witness :
    (1 ≤ 2 ∧ 2 ≤ 3 ∧ 3 ≤ 7 ∧ 7 + 2 ≤ 12 ∧ 2 ≤ 4 ∧ 4 ≤ 9 ∧ 9 + 2 ≤ 12) ∧
    unpadded_shape
        (set_index_padding false (((3 : Nat) : Int), ((7 : Nat) : Int))
          (((4 : Nat) : Int), ((9 : Nat) : Int)) 12 12 2) 12 12 =
      core_window_shape (((3 : Nat) : Int), ((7 : Nat) : Int))
        (((4 : Nat) : Int), ((9 : Nat) : Int)) 12 12 :=
  ⟨by decide,
    C1_unpad_recovers_core 12 12 2 3 7 4 9 (by decide) (by decide) (by decide)
      (by decide) (by decide) (by decide) (by decide)⟩

/-! ### Python exceptions

Exceptions the embedded code can raise.  The spec's abstract error kinds map
to concrete Python exceptions as follows:
* `InvalidShape` (wrong rank into a staggering function) is the
  `AssertionError` of `assert rho_in.ndim == 2` in `rho2u_2d`/`rho2v_2d`,
  and the tuple-unpacking `ValueError` of `mshp, lshp = uu_in.shape` in
  `u2rho_2d`/`v2rho_2d`;
* `ShapeMismatch` (zeta vs. metrics disagreement in the velocity solver)
  is the numpy broadcast `ValueError` of an element-wise operation or of a
  slice assignment, or the `IndexError` of a column/row replication step on
  a degenerate intermediate. -/

inductive PyExn where
  | assertionError (msg : String)
  | valueError (msg : String)
  | indexError
deriving Repr, DecidableEq

/-- `AssertionError('rho_in must be 2d')` raised by `rho2u_2d`/`rho2v_2d`. -/
def rhoAssertExn : PyExn := .assertionError "rho_in must be 2d"

/-- `ValueError` raised by the tuple unpacking `mshp, lshp = arr.shape`
when the array is not 2-D. -/
def unpackExn : PyExn := .valueError "cannot unpack array shape into two variables"

/-- `ValueError` raised by an element-wise numpy operation on arrays whose
shapes cannot be broadcast together. -/
def broadcastExn : PyExn := .valueError "operands could not be broadcast together"

/-- `ValueError` raised when assigning an array that cannot be broadcast to
the shape of the assignment target. -/
def assignExn : PyExn := .valueError "could not broadcast input array into output shape"

/-- The spec's `InvalidShape` error kind. -/
def isInvalidShape (e : PyExn) : Bool := e == rhoAssertExn || e == unpackExn

/-- The spec's `ShapeMismatch` error kind. -/
def isShapeMismatch (e : PyExn) : Bool :=
  e == broadcastExn || e == assignExn || e == PyExn.indexError

/-- The computation raised an exception of the spec's `InvalidShape` kind. -/
def raisesInvalidShape {β : Type} (r : Except PyExn β) : Prop :=
  match r with
  | .error e => isInvalidShape e = true
  | .ok _ => False

/-- The computation raised an exception of the spec's `ShapeMismatch` kind. -/
def raisesShapeMismatch {β : Type} (r : Except PyExn β) : Prop :=
  match r with
  | .error e => isShapeMismatch e = true
  | .ok _ => False

/-! ### numpy arrays

A numpy array with exact element values: explicit shape list plus row-major
flat data.  `squeeze` drops every axis of extent 1 and leaves the flat data
unchanged, exactly as in numpy. -/

structure NpArr (α : Type) where
  shape : List Nat
  data : List α
deriving Repr, DecidableEq

namespace NpArr

variable {α : Type} [Zero α]

/-- `arr.ndim`. -/
def ndim (a : NpArr α) : Nat := a.shape.length

/-- Extent of the second axis (column count of a 2-D array). -/
def cols (a : NpArr α) : Nat := a.shape.getD 1 1

/-- Element `(i, j)` of a 2-D array (row-major). -/
def entry (a : NpArr α) (i j : Nat) : α := a.data.getD (i * a.cols + j) 0

/-- Build a 2-D array of shape `(m, n)` from an element function. -/
def mk2 (m n : Nat) (f : Nat → Nat → α) : NpArr α :=
  ⟨[m, n], (List.range m).flatMap fun i => (List.range n).map fun j => f i j⟩

/-- `arr.squeeze()`: remove all axes of extent 1 (row-major flat data is
unchanged by removing singleton axes). -/
def squeeze (a : NpArr α) : NpArr α := ⟨a.shape.filter (· ≠ 1), a.data⟩

/-- A constant-valued 2-D array. -/
def constArr (m n : Nat) (c : α) : NpArr α := mk2 m n fun _ _ => c

@[simp] theorem shape_mk2 (m n : Nat) (f : Nat → Nat → α) : (mk2 m n f).shape = [m, n] := rfl

@[simp] theorem cols_mk2 (m n : Nat) (f : Nat → Nat → α) : (mk2 m n f).cols = n := rfl

theorem data_length_mk2 (m n : Nat) (f : Nat → Nat → α) :
    (mk2 m n f).data.length = m * n := by
  simp [mk2, Function.comp_def]

theorem mk2_data_succ (k n : Nat) (f : Nat → Nat → α) :
    (mk2 (k + 1) n f).data = (mk2 k n f).data ++ (List.range n).map (f k) := by
  simp [mk2, List.range_succ]

theorem entry_mk2 (m n : Nat) (f : Nat → Nat → α) {i j : Nat} (hi : i < m) (hj : j < n) :
    entry (mk2 m n f) i j = f i j := by
  induction m with
  | zero => omega
  | succ k ih =>
    rcases Nat.lt_succ_iff_lt_or_eq.mp hi with h | h
    · have hlt : i * n + j < (mk2 k n f).data.length := by
        rw [data_length_mk2]
        calc i * n + j < i * n + n := by omega
        _ = (i + 1) * n := by ring
        _ ≤ k * n := Nat.mul_le_mul_right n h
      have h2 := ih h
      simp only [entry, cols_mk2] at h2 ⊢
      rw [mk2_data_succ, List.getD_append _ _ _ _ hlt]
      exact h2
    · subst h
      simp only [entry, cols_mk2]
      rw [mk2_data_succ,
        List.getD_append_right _ _ _ _ (by rw [data_length_mk2]; omega),
        data_length_mk2]
      have h3 : i * n + j - i * n = j := by omega
      rw [h3, List.getD_eq_getElem?_getD, List.getElem?_map, List.getElem?_range hj]
      rfl

theorem mk2_congr (m n : Nat) (f g : Nat → Nat → α)
    (h : ∀ i < m, ∀ j < n, f i j = g i j) : mk2 m n f = mk2 m n g := by
  simp only [mk2, NpArr.mk.injEq, true_and]
  refine List.flatMap_congr fun i hi => ?_
  refine List.map_congr_left fun j hj => ?_
  exact h i (List.mem_range.mp hi) j (List.mem_range.mp hj)

theorem entry_constArr (m n : Nat) (c : α) {i j : Nat} (hi : i < m) (hj : j < n) :
    entry (constArr m n c) i j = c :=
  entry_mk2 m n _ hi hj

theorem squeeze_eq_self (a : NpArr α) (m k : Nat) (hs : a.shape = [m, k])
    (hm : m ≠ 1) (hk : k ≠ 1) : squeeze a = a := by
  obtain ⟨s, d⟩ := a
  simp only [squeeze, NpArr.mk.injEq, and_true]
  simp only at hs
  subst hs
  simp [List.filter, hm, hk]

end NpArr

export NpArr (ndim cols entry mk2 squeeze constArr)

/-! ### Staggered-grid conversion functions (grid/__init__.py lines 290-326)

Translated for a generic element type `α` so that the same definitions serve
the exact-rational model and the extended (inf/NaN) model below.  The
`0.5` of `half_interp` is `(1 : α) / 2`.

`u2rho_2d`/`v2rho_2d` perform sequential slice assignments on
`np.zeros((m_p, l_p))`; each assignment step is modelled by one named
element-function transformer, applied in source order.  On an input with
zero columns (resp. rows) the replication step `u_out[:, 0] = u_out[:, 1]`
(resp. `v_out[0] = v_out[1]`) raises `IndexError` because the output array
has a single column (resp. row). -/

variable {α : Type} [Zero α] [One α] [Add α] [Mul α] [Div α] [OfNat α 2]

/-- `half_interp(h_one, h_two) = (h_one + h_two) * 0.5` (source line 251). -/
def half_interp (x y : α) : α := (x + y) * ((1 : α) / 2)

/-- `rho2u_2d`: `assert rho_in.ndim == 2` then
`((rho_in[:, :-1] + rho_in[:, 1:]) / 2).squeeze()`. -/
def rho2u_2d (a : NpArr α) : Except PyExn (NpArr α) :=
  match a.shape with
  | [m, n] => .ok (squeeze (mk2 m (n - 1) fun i j => (entry a i j + entry a i (j + 1)) / 2))
  | _ => .error rhoAssertExn

/-- `rho2v_2d`: `assert rho_in.ndim == 2` then
`((rho_in[:-1] + rho_in[1:]) / 2).squeeze()`. -/
def rho2v_2d (a : NpArr α) : Except PyExn (NpArr α) :=
  match a.shape with
  | [m, n] => .ok (squeeze (mk2 (m - 1) n fun i j => (entry a i j + entry a (i + 1) j) / 2))
  | _ => .error rhoAssertExn

/-- State of `u_out` after `u_out[:, 1:-1] = half_interp(uu_in[:, :-1], uu_in[:, 1:])`
on `np.zeros((m_p, l_p))` with `l_p = l + 1`: interior columns `1 .. l-1`
hold the half-sums, everything else is still zero. -/
def u2rho_interior (a : NpArr α) (l : Nat) : Nat → Nat → α := fun i j =>
  if 1 ≤ j ∧ j < l then half_interp (entry a i (j - 1)) (entry a i j) else 0

/-- State after the additional `u_out[:, 0] = u_out[:, 1]`. -/
def u2rho_col0 (a : NpArr α) (l : Nat) : Nat → Nat → α := fun i j =>
  if j = 0 then u2rho_interior a l i 1 else u2rho_interior a l i j

/-- State after the additional `u_out[:, -1] = u_out[:, -2]`. -/
def u2rho_colLast (a : NpArr α) (l : Nat) : Nat → Nat → α := fun i j =>
  if j = l then u2rho_col0 a l i (l - 1) else u2rho_col0 a l i j

/-- `u2rho_2d`: unpack `mshp, lshp = uu_in.shape` (raising `ValueError` on a
non-2-D input), build the `(mshp, lshp + 1)` zero array, run the three slice
assignments, and `squeeze`. -/
def u2rho_2d (a : NpArr α) : Except PyExn (NpArr α) :=
  match a.shape with
  | [m, l] =>
    if l = 0 then .error .indexError
    else .ok (squeeze (mk2 m (l + 1) (u2rho_colLast a l)))
  | _ => .error unpackExn

/-- State of `v_out` after `v_out[1:-1] = half_interp(vv_in[:-1], vv_in[1:])`. -/
def v2rho_interior (a : NpArr α) (mr : Nat) : Nat → Nat → α := fun i j =>
  if 1 ≤ i ∧ i < mr then half_interp (entry a (i - 1) j) (entry a i j) else 0

/-- State after the additional `v_out[0] = v_out[1]`. -/
def v2rho_row0 (a : NpArr α) (mr : Nat) : Nat → Nat → α := fun i j =>
  if i = 0 then v2rho_interior a mr 1 j else v2rho_interior a mr i j

/-- State after the additional `v_out[-1] = v_out[-2]`. -/
def v2rho_rowLast (a : NpArr α) (mr : Nat) : Nat → Nat → α := fun i j =>
  if i = mr then v2rho_row0 a mr (mr - 1) j else v2rho_row0 a mr i j

/-- `v2rho_2d`: unpack `mshp, lshp = vv_in.shape` (raising `ValueError` on a
non-2-D input), build the `(mshp + 1, lshp)` zero array, run the three slice
assignments, and `squeeze`. -/
def v2rho_2d (a : NpArr α) : Except PyExn (NpArr α) :=
  match a.shape with
  | [mr, l] =>
    if mr = 0 then .error .indexError
    else .ok (squeeze (mk2 (mr + 1) l (v2rho_rowLast a mr)))
  | _ => .error unpackExn

theorem raisesInvalidShape_rhoAssert {β : Type} :
    raisesInvalidShape (Except.error rhoAssertExn : Except PyExn β) := by
  simp [raisesInvalidShape, isInvalidShape]

theorem raisesInvalidShape_unpack {β : Type} :
    raisesInvalidShape (Except.error unpackExn : Except PyExn β) := by
  simp [raisesInvalidShape, isInvalidShape]

/-- Claim C2: each of the four staggered-grid conversion functions, applied
to an input whose rank is not 2, fails with the spec's `InvalidShape`
contract-violation error and never returns a value.  In the source,
`rho2u_2d`/`rho2v_2d` raise it as the `AssertionError` of
`assert rho_in.ndim == 2`, while `u2rho_2d`/`v2rho_2d` raise it as the
`ValueError` of the tuple unpacking `mshp, lshp = arr.shape`. -/
theorem C2_staggering_requires_2d (a : NpArr ℚ) (h : ndim a ≠ 2) :
    raisesInvalidShape (rho2u_2d a) ∧ raisesInvalidShape (rho2v_2d a) ∧
    raisesInvalidShape (u2rho_2d a) ∧ raisesInvalidShape (v2rho_2d a) := by
  obtain ⟨s, d⟩ := a
  simp only [ndim] at h
  rcases s with _ | ⟨x, _ | ⟨y, _ | ⟨z, t⟩⟩⟩
  · exact ⟨raisesInvalidShape_rhoAssert, raisesInvalidShape_rhoAssert,
      raisesInvalidShape_unpack, raisesInvalidShape_unpack⟩
  · exact ⟨raisesInvalidShape_rhoAssert, raisesInvalidShape_rhoAssert,
      raisesInvalidShape_unpack, raisesInvalidShape_unpack⟩
  · exact absurd rfl h
  · exact ⟨raisesInvalidShape_rhoAssert, raisesInvalidShape_rhoAssert,
      raisesInvalidShape_unpack, raisesInvalidShape_unpack⟩

/-- Witness for `C2_staggering_requires_2d` on a concrete 1-D input. -/
theorem C2_staggering_requires_2d_witness :
    ndim (⟨[3], [(1 : ℚ), 2, 3]⟩ : NpArr ℚ) ≠ 2 ∧
    (raisesInvalidShape (rho2u_2d (⟨[3], [(1 : ℚ), 2, 3]⟩ : NpArr ℚ)) ∧
     raisesInvalidShape (rho2v_2d (⟨[3], [(1 : ℚ), 2, 3]⟩ : NpArr ℚ)) ∧
     raisesInvalidShape (u2rho_2d (⟨[3], [(1 : ℚ), 2, 3]⟩ : NpArr ℚ)) ∧
     raisesInvalidShape (v2rho_2d (⟨[3], [(1 : ℚ), 2, 3]⟩ : NpArr ℚ))) :=
  ⟨by decide, C2_staggering_requires_2d _ (by decide)⟩

/-- Claim C10 (counterexample): on the 2-D input of shape `(1, 2)` the
function `rho2u_2d` returns a 0-dimensional array (shape `[]`), because
`squeeze` removes both singleton axes of the `(1, 1)` intermediate — not a
1-D array of length equal to the row count. -/
theorem C10_counterexample :
    rho2u_2d (constArr 1 2 (5 : ℚ)) = .ok ⟨[], [5]⟩ ∧
    (⟨[], [(5 : ℚ)]⟩ : NpArr ℚ).shape ≠ [1] := by
  constructor
  · show Except.ok (squeeze (mk2 1 1 fun i j =>
      (entry (constArr 1 2 (5 : ℚ)) i j + entry (constArr 1 2 (5 : ℚ)) i (j + 1)) / 2)) = _
    have h : mk2 1 1 (fun i j =>
        (entry (constArr 1 2 (5 : ℚ)) i j + entry (constArr 1 2 (5 : ℚ)) i (j + 1)) / 2) =
        mk2 1 1 (fun _ _ => (5 : ℚ)) := by
      refine NpArr.mk2_congr _ _ _ _ fun i hi j hj => ?_
      rw [NpArr.entry_constArr 1 2 _ hi (by omega), NpArr.entry_constArr 1 2 _ hi (by omega)]
      norm_num
    rw [h]
    rfl
  · decide

/-- Claim C10 (amended): for every 2-D input with exactly two columns and a
row count different from 1, `rho2u_2d` returns a one-dimensional array of
length equal to the number of rows; symmetrically `rho2v_2d` on a two-row
input with column count different from 1 returns a one-dimensional array of
length equal to the number of columns.  The single-row (resp. single-column)
case squeezes down to a 0-D array instead (`C10_counterexample`). -/
theorem C10_two_column_squeeze (m n : Nat) (a b : NpArr ℚ) (hm : m ≠ 1) (hn : n ≠ 1)
    (ha : a.shape = [m, 2]) (hb : b.shape = [2, n]) :
    (rho2u_2d a).map NpArr.shape = .ok [m] ∧
    (rho2v_2d b).map NpArr.shape = .ok [n] := by
  constructor
  · obtain ⟨s, d⟩ := a
    simp only at ha
    subst ha
    show Except.ok (squeeze (mk2 m 1 _)).shape = _
    simp [squeeze, List.filter, hm]
  · obtain ⟨s, d⟩ := b
    simp only at hb
    subst hb
    show Except.ok (squeeze (mk2 1 n _)).shape = _
    simp [squeeze, List.filter, hn]

/-- Witness for `C10_two_column_squeeze` on concrete `(3, 2)` and `(2, 4)`
inputs. -/
theorem C10_two_column_squeeze_witness :
    ((3 : Nat) ≠ 1 ∧ (4 : Nat) ≠ 1 ∧
      (constArr 3 2 (0 : ℚ)).shape = [3, 2] ∧ (constArr 2 4 (0 : ℚ)).shape = [2, 4]) ∧
    ((rho2u_2d (constArr 3 2 (0 : ℚ))).map NpArr.shape = .ok [3] ∧
     (rho2v_2d (constArr 2 4 (0 : ℚ))).map NpArr.shape = .ok [4]) :=
  ⟨by decide, C10_two_column_squeeze 3 4 _ _ (by decide) (by decide) rfl rfl⟩

/-- Claim C6 (counterexample): on the constant field of shape `(3, 2)` — a
2-D constant field with two columns — `rho2u_2d` squeezes its `(3, 1)`
result down to a 1-D array, and `u2rho_2d` then fails with the shape-unpack
`ValueError`; the round trip does not return the original field. -/
theorem C6_counterexample :
    (rho2u_2d (constArr 3 2 (5 : ℚ))).bind u2rho_2d = .error unpackExn ∧
    (Except.error unpackExn : Except PyExn (NpArr ℚ)) ≠ .ok (constArr 3 2 (5 : ℚ)) := by
  exact ⟨rfl, by simp⟩

/-- Claim C6 (amended): for every 2-D constant field with at least two rows
and at least three columns, applying `rho2u_2d` and then `u2rho_2d` returns
the same constant field with the original shape.  With exactly two columns
(or a single row) the intermediate array is squeezed below rank 2 and the
round trip fails instead (`C6_counterexample`). -/
theorem C6_roundtrip_const (m n : Nat) (c : ℚ) (hm : 2 ≤ m) (hn : 3 ≤ n) :
    (rho2u_2d (constArr m n c)).bind u2rho_2d = .ok (constArr m n c) := by
  have h1 : rho2u_2d (constArr m n c) =
      .ok (squeeze (mk2 m (n - 1) fun i j =>
        (entry (constArr m n c) i j + entry (constArr m n c) i (j + 1)) / 2)) := rfl
  have h2 : mk2 m (n - 1) (fun i j =>
      (entry (constArr m n c) i j + entry (constArr m n c) i (j + 1)) / 2) =
      constArr m (n - 1) c := by
    refine NpArr.mk2_congr m (n - 1) _ _ fun i hi j hj => ?_
    rw [NpArr.entry_constArr m n c hi (by omega), NpArr.entry_constArr m n c hi (by omega)]
    ring
  have h3 : squeeze (constArr m (n - 1) c) = constArr m (n - 1) c :=
    NpArr.squeeze_eq_self _ m (n - 1) rfl (by omega) (by omega)
  rw [h1, h2, h3]
  show u2rho_2d (constArr m (n - 1) c) = .ok (constArr m n c)
  have h4 : u2rho_2d (constArr m (n - 1) c) =
      if n - 1 = 0 then .error .indexError
      else .ok (squeeze (mk2 m ((n - 1) + 1)
        (u2rho_colLast (constArr m (n - 1) c) (n - 1)))) := rfl
  rw [h4, if_neg (by omega)]
  have h5 : (n - 1) + 1 = n := by omega
  rw [h5]
  have h6 : mk2 m n (u2rho_colLast (constArr m (n - 1) c) (n - 1)) = constArr m n c := by
    refine NpArr.mk2_congr m n _ _ fun i hi j hj => ?_
    simp only [u2rho_colLast, u2rho_col0, u2rho_interior, half_interp]
    by_cases h7 : j = n - 1
    · rw [if_pos h7, if_neg (by omega), if_pos ⟨by omega, by omega⟩,
        NpArr.entry_constArr m (n - 1) c hi (by omega),
        NpArr.entry_constArr m (n - 1) c hi (by omega)]
      ring
    · rw [if_neg h7]
      by_cases h8 : j = 0
      · rw [if_pos h8, if_pos ⟨le_refl 1, by omega⟩,
          NpArr.entry_constArr m (n - 1) c hi (by omega),
          NpArr.entry_constArr m (n - 1) c hi (by omega)]
        ring
      · rw [if_neg h8, if_pos ⟨by omega, by omega⟩,
          NpArr.entry_constArr m (n - 1) c hi (by omega),
          NpArr.entry_constArr m (n - 1) c hi (by omega)]
        ring
  rw [h6, NpArr.squeeze_eq_self _ m n rfl (by omega) (by omega)]

/-- Witness for `C6_roundtrip_const` on the constant field of value 1 and
shape `(2, 3)`. -/
theorem C6_roundtrip_const_witness :
    ((2 : Nat) ≤ 2 ∧ (3 : Nat) ≤ 3) ∧
    (rho2u_2d (constArr 2 3 (1 : ℚ))).bind u2rho_2d = .ok (constArr 2 3 (1 : ℚ)) :=
  ⟨by decide, C6_roundtrip_const 2 3 1 (by decide) (by decide)⟩

/-! ### Extended values: IEEE-754 special-value algebra over exact rationals

numpy float arithmetic is exact on the values arising in the geostrophic
velocity computation on a constant `zeta` (differences `x - x`, products
with `0`), but produces `inf` on division of a nonzero number by zero
(`gof = GRAVITY / f` at zero latitude, where `sin(0) = 0.0`) and `nan` on
`0 * inf`.  `EF` models exactly this special-value algebra; rounding plays
no role in these claims.  Signed zero is not modelled: division of a
positive number by the unsigned zero gives `inf`, matching numpy's
`9.81 / +0.0`. -/

inductive EF where
  | fin (q : ℚ)
  | inf
  | ninf
  | nan
deriving Repr, DecidableEq, Inhabited

namespace EF

def isFin : EF → Bool
  | fin _ => true
  | _ => false

def add : EF → EF → EF
  | nan, _ => nan
  | _, nan => nan
  | fin a, fin b => fin (a + b)
  | inf, ninf => nan
  | ninf, inf => nan
  | inf, _ => inf
  | ninf, _ => ninf
  | fin _, inf => inf
  | fin _, ninf => ninf

def neg : EF → EF
  | nan => nan
  | inf => ninf
  | ninf => inf
  | fin a => fin (-a)

/-- IEEE subtraction coincides with addition of the negation. -/
def sub (x y : EF) : EF := add x (neg y)

def mul : EF → EF → EF
  | nan, _ => nan
  | _, nan => nan
  | fin a, fin b => fin (a * b)
  | fin a, inf => if 0 < a then inf else if a < 0 then ninf else nan
  | fin a, ninf => if 0 < a then ninf else if a < 0 then inf else nan
  | inf, fin b => if 0 < b then inf else if b < 0 then ninf else nan
  | ninf, fin b => if 0 < b then ninf else if b < 0 then inf else nan
  | inf, inf => inf
  | inf, ninf => ninf
  | ninf, inf => ninf
  | ninf, ninf => inf

def div : EF → EF → EF
  | nan, _ => nan
  | _, nan => nan
  | fin a, fin b =>
    if b = 0 then (if 0 < a then inf else if a < 0 then ninf else nan)
    else fin (a / b)
  | fin _, inf => fin 0
  | fin _, ninf => fin 0
  | inf, fin b => if b < 0 then ninf else inf
  | ninf, fin b => if b < 0 then inf else ninf
  | inf, inf => nan
  | inf, ninf => nan
  | ninf, inf => nan
  | ninf, ninf => nan

instance : Zero EF := ⟨fin 0⟩
instance : One EF := ⟨fin 1⟩
instance : OfNat EF 2 := ⟨fin 2⟩
instance : Add EF := ⟨add⟩
instance : Mul EF := ⟨mul⟩
instance : Neg EF := ⟨neg⟩
instance : Sub EF := ⟨sub⟩
instance : Div EF := ⟨div⟩

theorem isFin_add {a b : EF} (ha : isFin a = true) (hb : isFin b = true) :
    isFin (add a b) = true := by
  cases a <;> cases b <;> simp_all [isFin, add]

theorem isFin_neg {a : EF} (ha : isFin a = true) : isFin (neg a) = true := by
  cases a <;> simp_all [isFin, neg]

theorem zero_mul_fin {x : EF} (hx : isFin x = true) : mul (fin 0) x = fin 0 := by
  cases x <;> simp_all [isFin, mul]

theorem fin_sub_self (c : ℚ) : sub (fin c) (fin c) = fin 0 := by
  simp [sub, neg, add]

end EF

/-! ### The geostrophic velocity solver (grid/__init__.py lines 366-383)

`set_geostrophic_velocity` reads the cached metric matrices `self.gof`,
`self.p_m`, `self.p_n` (padded-window `rho`-shaped arrays, `(M, L)` =
`gof.shape`), computes the two staggered pressure-gradient fields, converts
them back to `rho` points, assigns them into the pre-allocated plain arrays
`self.upad` / `self.vpad` (shape `(M, L)`), and multiplies by `∓gof`.

numpy element-wise operations broadcast; `broadcastDim` and `op2` model
2-D broadcasting exactly (dimensions combine when equal or when one of them
is 1; otherwise `ValueError`).  `assign2` models `upad[:] = value`, which
broadcasts the value to the target shape (also accepting the 1-D and 0-D
results a `squeeze` may have produced) or raises `ValueError`.

The source wraps each staggered field in `np.ma.array(..., mask=self.vmask)`
(resp. `umask`) before `v2rho_2d`/`u2rho_2d`; masked-array arithmetic
computes the underlying data everywhere, and the mask is dropped when the
result is assigned into the plain ndarray `self.upad`/`self.vpad` — so the
mask never influences the numeric data.  `umask`/`vmask` are therefore
threaded as arguments but do not enter the data path. -/

def broadcastDim (a b : Nat) : Option Nat :=
  if a = b then some a else if a = 1 then some b else if b = 1 then some a else none

/-- Element-wise binary operation with numpy 2-D broadcasting. -/
def op2 (op : EF → EF → EF) (a b : NpArr EF) : Except PyExn (NpArr EF) :=
  match a.shape, b.shape with
  | [m1, l1], [m2, l2] =>
    match broadcastDim m1 m2, broadcastDim l1 l2 with
    | some m, some l =>
      .ok (mk2 m l fun i j =>
        op (entry a (if m1 = 1 then 0 else i) (if l1 = 1 then 0 else j))
           (entry b (if m2 = 1 then 0 else i) (if l2 = 1 then 0 else j)))
    | _, _ => .error broadcastExn
  | _, _ => .error broadcastExn

/-- `a[1:]` on a 2-D array. -/
def rowTail (a : NpArr EF) : NpArr EF :=
  match a.shape with
  | [m, n] => mk2 (m - 1) n fun i j => entry a (i + 1) j
  | _ => a

/-- `a[:-1]` on a 2-D array. -/
def rowInit (a : NpArr EF) : NpArr EF :=
  match a.shape with
  | [m, n] => mk2 (m - 1) n fun i j => entry a i j
  | _ => a

/-- `a[:, 1:]` on a 2-D array. -/
def colTail (a : NpArr EF) : NpArr EF :=
  match a.shape with
  | [m, n] => mk2 m (n - 1) fun i j => entry a i (j + 1)
  | _ => a

/-- `a[:, :-1]` on a 2-D array. -/
def colInit (a : NpArr EF) : NpArr EF :=
  match a.shape with
  | [m, n] => mk2 m (n - 1) fun i j => entry a i j
  | _ => a

/-- `a * 0.5` (scalar multiplication, element-wise). -/
def scalHalf (a : NpArr EF) : NpArr EF :=
  match a.shape with
  | [m, n] => mk2 m n fun i j => EF.mul (entry a i j) (EF.fin (1 / 2))
  | _ => a

/-- `-a` (element-wise negation, for `self.upad *= -self.gof`). -/
def negArr (a : NpArr EF) : NpArr EF :=
  match a.shape with
  | [m, n] => mk2 m n fun i j => EF.neg (entry a i j)
  | _ => a

/-- `target[:] = v` for a 2-D target of shape `(M, L)`: broadcast `v` to the
target shape or raise `ValueError`. -/
def assign2 (M L : Nat) (v : NpArr EF) : Except PyExn (NpArr EF) :=
  match v.shape with
  | [m, l] =>
    if (m = M ∨ m = 1) ∧ (l = L ∨ l = 1) then
      .ok (mk2 M L fun i j => entry v (if m = 1 then 0 else i) (if l = 1 then 0 else j))
    else .error assignExn
  | [l] =>
    if l = L ∨ l = 1 then
      .ok (mk2 M L fun _ j => v.data.getD (if l = 1 then 0 else j) 0)
    else .error assignExn
  | [] => .ok (mk2 M L fun _ _ => v.data.getD 0 0)
  | _ => .error assignExn

/-- `set_geostrophic_velocity(zeta)`: returns the final `(upad, vpad)` pair
or the first exception raised.  `M`/`L` are the extents of the pre-allocated
`upad`/`vpad`, which were built with the padded-window shape — the shape of
the cached `gof`. -/
def set_geostrophic_velocity (gof p_m p_n : NpArr EF) (umask vmask : NpArr Bool)
    (zeta : NpArr EF) : Except PyExn (NpArr EF × NpArr EF) := do
  let M := gof.shape.getD 0 0
  let L := gof.shape.getD 1 1
  let zdiff ← op2 EF.sub (rowTail zeta) (rowInit zeta)
  let pnsum ← op2 EF.add (rowTail p_n) (rowInit p_n)
  let x1 ← op2 EF.mul (scalHalf zdiff) pnsum
  let r1 ← v2rho_2d x1
  let upad0 ← assign2 M L r1
  let upad ← op2 EF.mul upad0 (negArr gof)
  let zdiff2 ← op2 EF.sub (colTail zeta) (colInit zeta)
  let pmsum ← op2 EF.add (colTail p_m) (colInit p_m)
  let x2 ← op2 EF.mul (scalHalf zdiff2) pmsum
  let r2 ← u2rho_2d x2
  let vpad0 ← assign2 M L r2
  let vpad ← op2 EF.mul vpad0 gof
  return (upad, vpad)

@[simp] theorem except_bind_ok {ε β γ : Type} (a : β) (f : β → Except ε γ) :
    (Except.ok a : Except ε β) >>= f = f a := rfl

@[simp] theorem except_bind_err {ε β γ : Type} (e : ε) (f : β → Except ε γ) :
    (Except.error e : Except ε β) >>= f = (.error e : Except ε γ) := rfl

theorem rowTail_eq (a : NpArr EF) (m n : Nat) (h : a.shape = [m, n]) :
    rowTail a = mk2 (m - 1) n fun i j => entry a (i + 1) j := by
  obtain ⟨s, d⟩ := a
  simp only at h
  subst h
  rfl

theorem rowInit_eq (a : NpArr EF) (m n : Nat) (h : a.shape = [m, n]) :
    rowInit a = mk2 (m - 1) n fun i j => entry a i j := by
  obtain ⟨s, d⟩ := a
  simp only at h
  subst h
  rfl

theorem colTail_eq (a : NpArr EF) (m n : Nat) (h : a.shape = [m, n]) :
    colTail a = mk2 m (n - 1) fun i j => entry a i (j + 1) := by
  obtain ⟨s, d⟩ := a
  simp only at h
  subst h
  rfl

theorem colInit_eq (a : NpArr EF) (m n : Nat) (h : a.shape = [m, n]) :
    colInit a = mk2 m (n - 1) fun i j => entry a i j := by
  obtain ⟨s, d⟩ := a
  simp only at h
  subst h
  rfl

theorem scalHalf_eq (a : NpArr EF) (m n : Nat) (h : a.shape = [m, n]) :
    scalHalf a = mk2 m n fun i j => EF.mul (entry a i j) (EF.fin (1 / 2)) := by
  obtain ⟨s, d⟩ := a
  simp only at h
  subst h
  rfl

theorem negArr_eq (a : NpArr EF) (m n : Nat) (h : a.shape = [m, n]) :
    negArr a = mk2 m n fun i j => EF.neg (entry a i j) := by
  obtain ⟨s, d⟩ := a
  simp only at h
  subst h
  rfl

/-- Broadcast index adjustment is the identity on in-range indices. -/
theorem bidx (m i : Nat) (hi : i < m) : (if m = 1 then 0 else i) = i := by
  split_ifs with h
  · omega
  · rfl

theorem op2_same (op : EF → EF → EF) (a b : NpArr EF) (m n : Nat)
    (hA : a.shape = [m, n]) (hB : b.shape = [m, n]) :
    op2 op a b = .ok (mk2 m n fun i j =>
      op (entry a (if m = 1 then 0 else i) (if n = 1 then 0 else j))
         (entry b (if m = 1 then 0 else i) (if n = 1 then 0 else j))) := by
  obtain ⟨s, d⟩ := a
  obtain ⟨t, e⟩ := b
  simp only at hA hB
  subst hA
  subst hB
  simp [op2, broadcastDim]

theorem half_interp_zero : half_interp (EF.fin 0) (EF.fin 0) = EF.fin 0 := by
  show EF.mul (EF.add (EF.fin 0) (EF.fin 0)) (EF.div (EF.fin 1) (EF.fin 2)) = EF.fin 0
  norm_num [EF.add, EF.mul, EF.div]

theorem v2rho_on_zero (m n : Nat) (hm : 2 ≤ m) (hn : 2 ≤ n) :
    v2rho_2d (constArr (m - 1) n (EF.fin 0)) = .ok (constArr m n (EF.fin 0)) := by
  have h0 : v2rho_2d (constArr (m - 1) n (EF.fin 0)) =
      if m - 1 = 0 then .error .indexError
      else .ok (squeeze (mk2 ((m - 1) + 1) n
        (v2rho_rowLast (constArr (m - 1) n (EF.fin 0)) (m - 1)))) := rfl
  rw [h0, if_neg (by omega)]
  have h1 : (m - 1) + 1 = m := by omega
  rw [h1]
  have h2 : mk2 m n (v2rho_rowLast (constArr (m - 1) n (EF.fin 0)) (m - 1)) =
      constArr m n (EF.fin 0) := by
    refine NpArr.mk2_congr m n _ _ fun i hi j hj => ?_
    simp only [v2rho_rowLast, v2rho_row0, v2rho_interior]
    have hz : ∀ i2, i2 < m - 1 → entry (constArr (m - 1) n (EF.fin 0)) i2 j = EF.fin 0 :=
      fun i2 h2 => NpArr.entry_constArr _ _ _ h2 hj
    split_ifs with ha hb hc hd he hf <;>
      first
        | rfl
        | (rw [hz _ (by omega), hz _ (by omega)]; exact half_interp_zero)
  rw [h2, NpArr.squeeze_eq_self _ m n rfl (by omega) (by omega)]

theorem u2rho_on_zero (m n : Nat) (hm : 2 ≤ m) (hn : 2 ≤ n) :
    u2rho_2d (constArr m (n - 1) (EF.fin 0)) = .ok (constArr m n (EF.fin 0)) := by
  have h0 : u2rho_2d (constArr m (n - 1) (EF.fin 0)) =
      if n - 1 = 0 then .error .indexError
      else .ok (squeeze (mk2 m ((n - 1) + 1)
        (u2rho_colLast (constArr m (n - 1) (EF.fin 0)) (n - 1)))) := rfl
  rw [h0, if_neg (by omega)]
  have h1 : (n - 1) + 1 = n := by omega
  rw [h1]
  have h2 : mk2 m n (u2rho_colLast (constArr m (n - 1) (EF.fin 0)) (n - 1)) =
      constArr m n (EF.fin 0) := by
    refine NpArr.mk2_congr m n _ _ fun i hi j hj => ?_
    simp only [u2rho_colLast, u2rho_col0, u2rho_interior]
    have hz : ∀ j2, j2 < n - 1 → entry (constArr m (n - 1) (EF.fin 0)) i j2 = EF.fin 0 :=
      fun j2 h2 => NpArr.entry_constArr _ _ _ hi h2
    split_ifs with ha hb hc hd he hf <;>
      first
        | rfl
        | (rw [hz _ (by omega), hz _ (by omega)]; exact half_interp_zero)
  rw [h2, NpArr.squeeze_eq_self _ m n rfl (by omega) (by omega)]

theorem assign2_same (M L : Nat) (v : NpArr EF) (hv : v.shape = [M, L]) :
    assign2 M L v = .ok (mk2 M L fun i j =>
      entry v (if M = 1 then 0 else i) (if L = 1 then 0 else j)) := by
  obtain ⟨s, d⟩ := v
  simp only at hv
  subst hv
  simp [assign2]

theorem mk2_eq_const (m n : Nat) (f : Nat → Nat → EF) (c : EF)
    (h : ∀ i < m, ∀ j < n, f i j = c) : mk2 m n f = constArr m n c :=
  NpArr.mk2_congr m n f _ h

theorem rowTail_shape (a : NpArr EF) (m n : Nat) (h : a.shape = [m, n]) :
    (rowTail a).shape = [m - 1, n] := by
  rw [rowTail_eq a m n h]
  rfl

theorem rowInit_shape (a : NpArr EF) (m n : Nat) (h : a.shape = [m, n]) :
    (rowInit a).shape = [m - 1, n] := by
  rw [rowInit_eq a m n h]
  rfl

theorem colTail_shape (a : NpArr EF) (m n : Nat) (h : a.shape = [m, n]) :
    (colTail a).shape = [m, n - 1] := by
  rw [colTail_eq a m n h]
  rfl

theorem colInit_shape (a : NpArr EF) (m n : Nat) (h : a.shape = [m, n]) :
    (colInit a).shape = [m, n - 1] := by
  rw [colInit_eq a m n h]
  rfl

theorem op2_same_ex (op : EF → EF → EF) (a b : NpArr EF) (m n : Nat)
    (hA : a.shape = [m, n]) (hB : b.shape = [m, n]) :
    ∃ f, op2 op a b = .ok (mk2 m n f) :=
  ⟨_, op2_same op a b m n hA hB⟩

theorem op2_ok_ex (op : EF → EF → EF) (a b : NpArr EF) (m1 l1 m2 l2 m l : Nat)
    (hA : a.shape = [m1, l1]) (hB : b.shape = [m2, l2])
    (hm : broadcastDim m1 m2 = some m) (hl : broadcastDim l1 l2 = some l) :
    ∃ f, op2 op a b = .ok (mk2 m l f) := by
  obtain ⟨s, d⟩ := a
  obtain ⟨t, e⟩ := b
  simp only at hA hB
  subst hA
  subst hB
  refine ⟨fun i j =>
    op (entry ⟨[m1, l1], d⟩ (if m1 = 1 then 0 else i) (if l1 = 1 then 0 else j))
       (entry ⟨[m2, l2], e⟩ (if m2 = 1 then 0 else i) (if l2 = 1 then 0 else j)), ?_⟩
  simp [op2, hm, hl]

theorem op2_err_row (op : EF → EF → EF) (a b : NpArr EF) (m1 l1 m2 l2 : Nat)
    (hA : a.shape = [m1, l1]) (hB : b.shape = [m2, l2])
    (hm : broadcastDim m1 m2 = none) : op2 op a b = .error broadcastExn := by
  obtain ⟨s, d⟩ := a
  obtain ⟨t, e⟩ := b
  simp only at hA hB
  subst hA
  subst hB
  simp only [op2, hm]

theorem op2_err_col (op : EF → EF → EF) (a b : NpArr EF) (m1 l1 m2 l2 : Nat)
    (hA : a.shape = [m1, l1]) (hB : b.shape = [m2, l2])
    (hl : broadcastDim l1 l2 = none) : op2 op a b = .error broadcastExn := by
  obtain ⟨s, d⟩ := a
  obtain ⟨t, e⟩ := b
  simp only at hA hB
  subst hA
  subst hB
  simp only [op2, hl]
  rcases broadcastDim m1 m2 with _ | m <;> rfl

theorem broadcastDim_none (a b : Nat) (h1 : a ≠ b) (h2 : a ≠ 1) (h3 : b ≠ 1) :
    broadcastDim a b = none := by
  simp [broadcastDim, h1, h2, h3]

theorem broadcastDim_some_cases {a b c : Nat} (h : broadcastDim a b = some c) :
    (a = b ∧ c = a) ∨ (a = 1 ∧ c = b) ∨ (b = 1 ∧ c = a) := by
  simp only [broadcastDim] at h
  split_ifs at h with h1 h2 h3 <;> simp only [Option.some.injEq] at h <;> tauto

theorem scalHalf_shape (a : NpArr EF) (m n : Nat) (h : a.shape = [m, n]) :
    (scalHalf a).shape = [m, n] := by
  rw [scalHalf_eq a m n h]
  rfl

theorem v2rho_err0 (a : NpArr EF) (n : Nat) (h : a.shape = [0, n]) :
    v2rho_2d a = .error .indexError := by
  obtain ⟨s, d⟩ := a
  simp only at h
  subst h
  rfl

theorem v2rho_ok_ex (a : NpArr EF) (r n : Nat) (h : a.shape = [r, n]) (hr : r ≠ 0) :
    ∃ f, v2rho_2d a = .ok (squeeze (mk2 (r + 1) n f)) := by
  obtain ⟨s, d⟩ := a
  simp only at h
  subst h
  refine ⟨v2rho_rowLast ⟨[r, n], d⟩ r, ?_⟩
  show (if r = 0 then Except.error PyExn.indexError else _) = _
  rw [if_neg hr]

theorem u2rho_err0 (a : NpArr EF) (m : Nat) (h : a.shape = [m, 0]) :
    u2rho_2d a = .error .indexError := by
  obtain ⟨s, d⟩ := a
  simp only at h
  subst h
  rfl

theorem assign2_err (M L : Nat) (v : NpArr EF) (m l : Nat) (hv : v.shape = [m, l])
    (h : ¬((m = M ∨ m = 1) ∧ (l = L ∨ l = 1))) : assign2 M L v = .error assignExn := by
  obtain ⟨s, d⟩ := v
  simp only at hv
  subst hv
  simp only [assign2]
  rw [if_neg h]

theorem assign2_ex (M L : Nat) (v : NpArr EF) (hv : v.shape = [M, L]) :
    ∃ f, assign2 M L v = .ok (mk2 M L f) :=
  ⟨_, assign2_same M L v hv⟩

theorem rSM_broadcast {β : Type} :
    raisesShapeMismatch (Except.error broadcastExn : Except PyExn β) := by
  simp [raisesShapeMismatch, isShapeMismatch]

theorem rSM_assign {β : Type} :
    raisesShapeMismatch (Except.error assignExn : Except PyExn β) := by
  simp [raisesShapeMismatch, isShapeMismatch]

theorem rSM_index {β : Type} :
    raisesShapeMismatch (Except.error PyExn.indexError : Except PyExn β) := by
  simp [raisesShapeMismatch, isShapeMismatch]

theorem broadcastDim_self (a : Nat) : broadcastDim a a = some a := by
  simp [broadcastDim]

def maskUCx : NpArr Bool := mk2 2 1 fun _ _ => false

def maskVCx : NpArr Bool := mk2 1 2 fun _ _ => false

/-- Claim C5: whenever the shape of `zeta` differs from the shape `(M, L)` of
the cached metric matrices (a well-formed padded window, `M, L ≥ 2`), the
call to the geostrophic velocity solver fails with one of the exceptions the
spec groups under `ShapeMismatch` (a numpy broadcast `ValueError`, a
broadcast failure on the `upad[:] = ...` assignment, or an `IndexError` on a
degenerate staggered intermediate), and never silently returns a result. -/
theorem C5_shape_mismatch_raises (M L Mz Lz : Nat) (gof p_m p_n : NpArr EF)
    (umask vmask : NpArr Bool) (zeta : NpArr EF)
    (hgof : gof.shape = [M, L]) (hpm : p_m.shape = [M, L]) (hpn : p_n.shape = [M, L])
    (hM : 2 ≤ M) (hL : 2 ≤ L) (hz : zeta.shape = [Mz, Lz])
    (hne : ¬(Mz = M ∧ Lz = L)) :
    raisesShapeMismatch (set_geostrophic_velocity gof p_m p_n umask vmask zeta) := by
  obtain ⟨f1, e1⟩ := op2_same_ex EF.sub (rowTail zeta) (rowInit zeta) (Mz - 1) Lz
    (rowTail_shape zeta Mz Lz hz) (rowInit_shape zeta Mz Lz hz)
  obtain ⟨f2, e2⟩ := op2_same_ex EF.add (rowTail p_n) (rowInit p_n) (M - 1) L
    (rowTail_shape p_n M L hpn) (rowInit_shape p_n M L hpn)
  have hs1 : (scalHalf (mk2 (Mz - 1) Lz f1)).shape = [Mz - 1, Lz] :=
    scalHalf_shape _ _ _ rfl
  rcases hrows : broadcastDim (Mz - 1) (M - 1) with _ | r
  · have e3 : op2 EF.mul (scalHalf (mk2 (Mz - 1) Lz f1)) (mk2 (M - 1) L f2) =
        .error broadcastExn := op2_err_row _ _ _ _ _ _ _ hs1 rfl hrows
    simp only [set_geostrophic_velocity, hgof, List.getD_cons_zero, List.getD_cons_succ,
      e1, e2, e3, except_bind_ok, except_bind_err]
    exact rSM_broadcast
  rcases hcols : broadcastDim Lz L with _ | cc
  · have e3 : op2 EF.mul (scalHalf (mk2 (Mz - 1) Lz f1)) (mk2 (M - 1) L f2) =
        .error broadcastExn := op2_err_col _ _ _ _ _ _ _ hs1 rfl hcols
    simp only [set_geostrophic_velocity, hgof, List.getD_cons_zero, List.getD_cons_succ,
      e1, e2, e3, except_bind_ok, except_bind_err]
    exact rSM_broadcast
  have hccL : cc = L := by
    rcases broadcastDim_some_cases hcols with ⟨h1, h2⟩ | ⟨h1, h2⟩ | ⟨h1, h2⟩ <;> omega
  rw [hccL] at hcols
  obtain ⟨f3, e3⟩ := op2_ok_ex EF.mul (scalHalf (mk2 (Mz - 1) Lz f1)) (mk2 (M - 1) L f2)
    (Mz - 1) Lz (M - 1) L r L hs1 rfl hrows hcols
  by_cases hr0 : r = 0
  · subst hr0
    have e4 : v2rho_2d (mk2 0 L f3) = .error .indexError := v2rho_err0 _ _ rfl
    simp only [set_geostrophic_velocity, hgof, List.getD_cons_zero, List.getD_cons_succ,
      e1, e2, e3, e4, except_bind_ok, except_bind_err]
    exact rSM_index
  obtain ⟨f4, e4⟩ := v2rho_ok_ex (mk2 r L f3) r L rfl hr0
  rw [NpArr.squeeze_eq_self _ (r + 1) L rfl (by omega) (by omega)] at e4
  by_cases hrM : r + 1 = M
  · obtain ⟨f5, e5⟩ := assign2_ex M L (mk2 (r + 1) L f4) (by rw [NpArr.shape_mk2, hrM])
    obtain ⟨f6, e6⟩ := op2_same_ex EF.mul (mk2 M L f5) (negArr gof) M L rfl
      (by rw [negArr_eq gof M L hgof]; exact NpArr.shape_mk2 M L _)
    obtain ⟨g1, v1⟩ := op2_same_ex EF.sub (colTail zeta) (colInit zeta) Mz (Lz - 1)
      (colTail_shape zeta Mz Lz hz) (colInit_shape zeta Mz Lz hz)
    obtain ⟨g2, v2⟩ := op2_same_ex EF.add (colTail p_m) (colInit p_m) M (L - 1)
      (colTail_shape p_m M L hpm) (colInit_shape p_m M L hpm)
    have hs2 : (scalHalf (mk2 Mz (Lz - 1) g1)).shape = [Mz, Lz - 1] :=
      scalHalf_shape _ _ _ rfl
    by_cases hMzM : Mz = M
    · subst hMzM
      have hLzne : Lz ≠ L := fun h => hne ⟨rfl, h⟩
      have hLz1 : Lz = 1 := by
        rcases broadcastDim_some_cases hcols with ⟨h1, h2⟩ | ⟨h1, h2⟩ | ⟨h1, h2⟩ <;> omega
      subst hLz1
      by_cases hL2 : L = 2
      · subst hL2
        obtain ⟨g3, v3⟩ := op2_ok_ex EF.mul (scalHalf (mk2 Mz (1 - 1) g1))
          (mk2 Mz (2 - 1) g2) Mz 0 Mz 1 Mz 0 hs2 (by norm_num [NpArr.shape_mk2])
          (broadcastDim_self Mz) rfl
        have v4 : u2rho_2d (mk2 Mz 0 g3) = .error .indexError := u2rho_err0 _ _ rfl
        simp only [set_geostrophic_velocity, hgof, List.getD_cons_zero,
          List.getD_cons_succ, e1, e2, e3, e4, e5, e6, v1, v2, v3, v4, except_bind_ok,
          except_bind_err]
        exact rSM_index
      · have v3 : op2 EF.mul (scalHalf (mk2 Mz (1 - 1) g1)) (mk2 Mz (L - 1) g2) =
            .error broadcastExn :=
          op2_err_col _ _ _ _ _ _ _ hs2 rfl
            (broadcastDim_none 0 (L - 1) (by omega) (by omega) (by omega))
        simp only [set_geostrophic_velocity, hgof, List.getD_cons_zero,
          List.getD_cons_succ, e1, e2, e3, e4, e5, e6, v1, v2, v3, except_bind_ok,
          except_bind_err]
        exact rSM_broadcast
    · have hMz2 : Mz = 2 ∧ 3 ≤ M := by
        rcases broadcastDim_some_cases hrows with ⟨h1, h2⟩ | ⟨h1, h2⟩ | ⟨h1, h2⟩ <;> omega
      have v3 : op2 EF.mul (scalHalf (mk2 Mz (Lz - 1) g1)) (mk2 M (L - 1) g2) =
          .error broadcastExn :=
        op2_err_row _ _ _ _ _ _ _ hs2 rfl
          (broadcastDim_none Mz M (by omega) (by omega) (by omega))
      simp only [set_geostrophic_velocity, hgof, List.getD_cons_zero,
        List.getD_cons_succ, e1, e2, e3, e4, e5, e6, v1, v2, v3, except_bind_ok,
        except_bind_err]
      exact rSM_broadcast
  · have e5 : assign2 M L (mk2 (r + 1) L f4) = .error assignExn :=
      assign2_err M L _ (r + 1) L rfl (by intro hAll; rcases hAll.1 with h1 | h1 <;> omega)
    simp only [set_geostrophic_velocity, hgof, List.getD_cons_zero, List.getD_cons_succ,
      e1, e2, e3, e4, e5, except_bind_ok, except_bind_err]
    exact rSM_assign

/-- Witness for `C5_shape_mismatch_raises`: metrics on a 2 by 2 padded
window, `zeta` of shape `(2, 3)`. -/
theorem C5_shape_mismatch_raises_witness :
    ((constArr 2 2 (EF.fin 1) : NpArr EF).shape = [2, 2] ∧ (2 : Nat) ≤ 2 ∧
      (constArr 2 3 (EF.fin 1) : NpArr EF).shape = [2, 3] ∧ ¬((2 : Nat) = 2 ∧ (3 : Nat) = 2)) ∧
    raisesShapeMismatch (set_geostrophic_velocity (constArr 2 2 (EF.fin 1))
      (constArr 2 2 (EF.fin 1)) (constArr 2 2 (EF.fin 1)) maskUCx maskVCx
      (constArr 2 3 (EF.fin 1))) :=
  ⟨⟨rfl, by omega, rfl, by omega⟩,
    C5_shape_mismatch_raises 2 2 2 3 _ _ _ maskUCx maskVCx _ rfl rfl rfl (by omega)
      (by omega) rfl (by omega)⟩

/-- On a constant `zeta` field of the padded-window shape, with finite metric
spacings, the solver succeeds and every output entry is `0 * (-gof)` (for
`upad`) resp. `0 * gof` (for `vpad`): the pressure-gradient factor vanishes
exactly, and only the multiplication by `gof` remains. -/
theorem solver_const_zeta (M L : Nat) (gof p_m p_n : NpArr EF) (umask vmask : NpArr Bool)
    (c : ℚ)
    (hgof : gof.shape = [M, L]) (hpm : p_m.shape = [M, L]) (hpn : p_n.shape = [M, L])
    (hM : 2 ≤ M) (hL : 2 ≤ L)
    (hpmf : ∀ i j, (entry p_m i j).isFin = true)
    (hpnf : ∀ i j, (entry p_n i j).isFin = true) :
    set_geostrophic_velocity gof p_m p_n umask vmask (constArr M L (EF.fin c)) =
      .ok (mk2 M L fun i j => EF.mul (EF.fin 0) (EF.neg (entry gof i j)),
           mk2 M L fun i j => EF.mul (EF.fin 0) (entry gof i j)) := by
  have s1 : op2 EF.sub (rowTail (constArr M L (EF.fin c)))
      (rowInit (constArr M L (EF.fin c))) = .ok (constArr (M - 1) L (EF.fin 0)) := by
    rw [rowTail_eq _ M L rfl, rowInit_eq _ M L rfl, op2_same _ _ _ (M - 1) L rfl rfl]
    congr 1
    refine mk2_eq_const _ _ _ _ fun i hi j hj => ?_
    rw [bidx _ _ hi, bidx _ _ hj, NpArr.entry_mk2 _ _ _ hi hj, NpArr.entry_mk2 _ _ _ hi hj,
      NpArr.entry_constArr _ _ _ (by omega) hj, NpArr.entry_constArr _ _ _ (by omega) hj]
    exact EF.fin_sub_self c
  have s2 : op2 EF.add (rowTail p_n) (rowInit p_n) =
      .ok (mk2 (M - 1) L fun i j => EF.add (entry p_n (i + 1) j) (entry p_n i j)) := by
    rw [rowTail_eq _ M L hpn, rowInit_eq _ M L hpn, op2_same _ _ _ (M - 1) L rfl rfl]
    congr 1
    refine NpArr.mk2_congr _ _ _ _ fun i hi j hj => ?_
    rw [bidx _ _ hi, bidx _ _ hj, NpArr.entry_mk2 _ _ _ hi hj, NpArr.entry_mk2 _ _ _ hi hj]
  have s3 : scalHalf (constArr (M - 1) L (EF.fin 0)) = constArr (M - 1) L (EF.fin 0) := by
    rw [scalHalf_eq _ (M - 1) L rfl]
    refine mk2_eq_const _ _ _ _ fun i hi j hj => ?_
    rw [NpArr.entry_constArr _ _ _ hi hj]
    norm_num [EF.mul]
  have s4 : op2 EF.mul (constArr (M - 1) L (EF.fin 0))
      (mk2 (M - 1) L fun i j => EF.add (entry p_n (i + 1) j) (entry p_n i j)) =
      .ok (constArr (M - 1) L (EF.fin 0)) := by
    rw [op2_same _ _ _ (M - 1) L rfl rfl]
    congr 1
    refine mk2_eq_const _ _ _ _ fun i hi j hj => ?_
    rw [bidx _ _ hi, bidx _ _ hj, NpArr.entry_constArr _ _ _ hi hj,
      NpArr.entry_mk2 _ _ _ hi hj]
    exact EF.zero_mul_fin (EF.isFin_add (hpnf _ _) (hpnf _ _))
  have s6 : assign2 M L (constArr M L (EF.fin 0)) = .ok (constArr M L (EF.fin 0)) := by
    rw [assign2_same M L _ rfl]
    congr 1
    refine mk2_eq_const _ _ _ _ fun i hi j hj => ?_
    rw [bidx _ _ hi, bidx _ _ hj, NpArr.entry_constArr _ _ _ hi hj]
  have s7 : op2 EF.mul (constArr M L (EF.fin 0)) (negArr gof) =
      .ok (mk2 M L fun i j => EF.mul (EF.fin 0) (EF.neg (entry gof i j))) := by
    rw [negArr_eq _ M L hgof, op2_same _ _ _ M L rfl rfl]
    congr 1
    refine NpArr.mk2_congr _ _ _ _ fun i hi j hj => ?_
    rw [bidx _ _ hi, bidx _ _ hj, NpArr.entry_constArr _ _ _ hi hj,
      NpArr.entry_mk2 _ _ _ hi hj]
  have s8 : op2 EF.sub (colTail (constArr M L (EF.fin c)))
      (colInit (constArr M L (EF.fin c))) = .ok (constArr M (L - 1) (EF.fin 0)) := by
    rw [colTail_eq _ M L rfl, colInit_eq _ M L rfl, op2_same _ _ _ M (L - 1) rfl rfl]
    congr 1
    refine mk2_eq_const _ _ _ _ fun i hi j hj => ?_
    rw [bidx _ _ hi, bidx _ _ hj, NpArr.entry_mk2 _ _ _ hi hj, NpArr.entry_mk2 _ _ _ hi hj,
      NpArr.entry_constArr _ _ _ hi (by omega), NpArr.entry_constArr _ _ _ hi (by omega)]
    exact EF.fin_sub_self c
  have s9 : op2 EF.add (colTail p_m) (colInit p_m) =
      .ok (mk2 M (L - 1) fun i j => EF.add (entry p_m i (j + 1)) (entry p_m i j)) := by
    rw [colTail_eq _ M L hpm, colInit_eq _ M L hpm, op2_same _ _ _ M (L - 1) rfl rfl]
    congr 1
    refine NpArr.mk2_congr _ _ _ _ fun i hi j hj => ?_
    rw [bidx _ _ hi, bidx _ _ hj, NpArr.entry_mk2 _ _ _ hi hj, NpArr.entry_mk2 _ _ _ hi hj]
  have s10 : scalHalf (constArr M (L - 1) (EF.fin 0)) = constArr M (L - 1) (EF.fin 0) := by
    rw [scalHalf_eq _ M (L - 1) rfl]
    refine mk2_eq_const _ _ _ _ fun i hi j hj => ?_
    rw [NpArr.entry_constArr _ _ _ hi hj]
    norm_num [EF.mul]
  have s11 : op2 EF.mul (constArr M (L - 1) (EF.fin 0))
      (mk2 M (L - 1) fun i j => EF.add (entry p_m i (j + 1)) (entry p_m i j)) =
      .ok (constArr M (L - 1) (EF.fin 0)) := by
    rw [op2_same _ _ _ M (L - 1) rfl rfl]
    congr 1
    refine mk2_eq_const _ _ _ _ fun i hi j hj => ?_
    rw [bidx _ _ hi, bidx _ _ hj, NpArr.entry_constArr _ _ _ hi hj,
      NpArr.entry_mk2 _ _ _ hi hj]
    exact EF.zero_mul_fin (EF.isFin_add (hpmf _ _) (hpmf _ _))
  have s13 : op2 EF.mul (constArr M L (EF.fin 0)) gof =
      .ok (mk2 M L fun i j => EF.mul (EF.fin 0) (entry gof i j)) := by
    rw [op2_same _ _ _ M L rfl hgof]
    congr 1
    refine NpArr.mk2_congr _ _ _ _ fun i hi j hj => ?_
    rw [bidx _ _ hi, bidx _ _ hj, NpArr.entry_constArr _ _ _ hi hj]
  simp only [set_geostrophic_velocity, hgof, List.getD_cons_zero, List.getD_cons_succ,
    s1, except_bind_ok, s2, s3, s4, v2rho_on_zero M L hM hL, s6, s7, s8, s9, s10, s11,
    u2rho_on_zero M L hM hL, s13]
  rfl

theorem mk2_const_data (m n : Nat) (c : EF) :
    (mk2 m n fun _ _ => c).data = List.replicate (m * n) c := by
  induction m with
  | zero => simp [mk2]
  | succ k ih =>
    rw [NpArr.mk2_data_succ, ih, List.map_const', List.length_range]
    rw [show (k + 1) * n = k * n + n by ring, List.replicate_add]

/-- Every entry of a finite-constant array is finite (out-of-range lookups
return the `fin 0` default). -/
theorem constArr_fin_isFin (m n : Nat) (q : ℚ) :
    ∀ i j, (entry (constArr m n (EF.fin q)) i j).isFin = true := by
  intro i j
  show ((constArr m n (EF.fin q)).data.getD _ 0).isFin = true
  rw [show (constArr m n (EF.fin q)).data = List.replicate (m * n) (EF.fin q) from
    mk2_const_data m n (EF.fin q)]
  rw [List.getD_eq_getElem?_getD, List.getElem?_replicate]
  split_ifs
  · rfl
  · rfl

/-- At a zero-latitude row, `f = sin(0) * 4π/86400` is the float `+0.0` and
`gof = GRAVITY / f = 9.81 / 0.0` is `+inf` (numpy emits a warning and
returns `inf`). -/
theorem gof_at_zero_latitude : EF.div (EF.fin (981 / 100)) (EF.fin 0) = EF.inf := by
  norm_num [EF.div]

/-- Metric matrices of a concrete 2 by 2 padded window whose first row sits
at latitude 0: there `gof` is infinite. -/
def gofCx : NpArr EF := mk2 2 2 fun i _ => if i = 0 then EF.inf else EF.fin 1

/-- Claim C4 (counterexample): on a 2 by 2 padded window whose first row has
latitude 0 (`gof = +inf` there, see `gof_at_zero_latitude`), the solver on
the constant field `zeta ≡ 5` returns `upad[0][0] = 0 * (-inf) = nan`, not
`0`: the claim's "including rows where the latitude is zero" part fails. -/
theorem C4_counterexample :
    (set_geostrophic_velocity gofCx (constArr 2 2 (EF.fin 1)) (constArr 2 2 (EF.fin 1))
        maskUCx maskVCx (constArr 2 2 (EF.fin 5))).map (fun p => entry p.1 0 0) =
      .ok EF.nan ∧ EF.nan ≠ EF.fin 0 := by
  constructor
  · rw [solver_const_zeta 2 2 gofCx _ _ maskUCx maskVCx 5 rfl rfl rfl (by norm_num)
      (by norm_num) (constArr_fin_isFin 2 2 1) (constArr_fin_isFin 2 2 1)]
    show Except.ok (entry (mk2 2 2 fun i j =>
      EF.mul (EF.fin 0) (EF.neg (entry gofCx i j))) 0 0) = .ok EF.nan
    rw [NpArr.entry_mk2 _ _ _ (by norm_num) (by norm_num)]
    have hg : entry gofCx 0 0 = EF.inf := by
      rw [show gofCx = mk2 2 2 fun i _ => if i = 0 then EF.inf else EF.fin 1 from rfl,
        NpArr.entry_mk2 _ _ _ (by norm_num) (by norm_num)]
      rfl
    rw [hg]
    norm_num [EF.mul, EF.neg]
  · intro h
    exact EF.noConfusion h

/-- Claim C4 (amended): for every constant finite sea-surface-height field
`zeta` on the padded window and every mask, the geostrophic velocity solver
produces `u == 0` and `v == 0` at every point of the padded window, provided
every `gof` entry is finite — that is, no row of the padded window sits at
latitude 0 (and the window is not at a pole), where `gof = gravity / f` is
infinite and the product `0 * inf` is NaN instead (`C4_counterexample`).
Finiteness of the cached spacing sums `p_m`/`p_n` (a nondegenerate grid) is
also assumed.  The result does not depend on the masks `umask`/`vmask`,
which the source drops when assigning into the plain `upad`/`vpad` arrays. -/
theorem C4_flat_zeta_zero_velocity (M L : Nat) (gof p_m p_n : NpArr EF)
    (umask vmask : NpArr Bool) (c : ℚ)
    (hgof : gof.shape = [M, L]) (hpm : p_m.shape = [M, L]) (hpn : p_n.shape = [M, L])
    (hM : 2 ≤ M) (hL : 2 ≤ L)
    (hpmf : ∀ i j, (entry p_m i j).isFin = true)
    (hpnf : ∀ i j, (entry p_n i j).isFin = true)
    (hgoff : ∀ i j, (entry gof i j).isFin = true) :
    set_geostrophic_velocity gof p_m p_n umask vmask (constArr M L (EF.fin c)) =
      .ok (constArr M L (EF.fin 0), constArr M L (EF.fin 0)) := by
  rw [solver_const_zeta M L gof p_m p_n umask vmask c hgof hpm hpn hM hL hpmf hpnf]
  congr 1
  rw [Prod.mk.injEq]
  constructor
  · refine mk2_eq_const _ _ _ _ fun i hi j hj => ?_
    exact EF.zero_mul_fin (EF.isFin_neg (hgoff i j))
  · refine mk2_eq_const _ _ _ _ fun i hi j hj => ?_
    exact EF.zero_mul_fin (hgoff i j)

/-- Witness for `C4_flat_zeta_zero_velocity` on a concrete 2 by 2 window
with `gof = p_m = p_n ≡ 1` and `zeta ≡ 3`. -/
theorem C4_flat_zeta_zero_velocity_witness :
    ((constArr 2 2 (EF.fin 1) : NpArr EF).shape = [2, 2] ∧ (2 : Nat) ≤ 2 ∧
      (∀ i j, (entry (constArr 2 2 (EF.fin 1)) i j).isFin = true)) ∧
    set_geostrophic_velocity (constArr 2 2 (EF.fin 1)) (constArr 2 2 (EF.fin 1))
        (constArr 2 2 (EF.fin 1)) maskUCx maskVCx (constArr 2 2 (EF.fin 3)) =
      .ok (constArr 2 2 (EF.fin 0), constArr 2 2 (EF.fin 0)) :=
  ⟨⟨rfl, by norm_num, constArr_fin_isFin 2 2 1⟩,
    C4_flat_zeta_zero_velocity 2 2 _ _ _ maskUCx maskVCx 3 rfl rfl rfl (by norm_num)
      (by norm_num) (constArr_fin_isFin 2 2 1) (constArr_fin_isFin 2 2 1)
      (constArr_fin_isFin 2 2 1)⟩

/-! ### Trigonometric parts, over the real numbers

`haversine_dist` (source lines 223-239), `get_aviso_f_pm_pn` (lines 253-288)
and the `uspd` property (lines 407-416) compute with `sin`, `cos`, `sqrt`
and `arctan2`; they are modelled with the exact real functions. -/

noncomputable section

open Real
open Classical

/-- `np.deg2rad(x) = x * (π / 180)`. -/
def deg2rad (x : ℝ) : ℝ := x * (π / 180)

/-- numpy's four-quadrant `arctan2(y, x)`.  In `haversine_dist` both
arguments are nonnegative square roots, so only the `0 < x` branch and the
`x = 0` branches are ever exercised. -/
def arctan2 (y x : ℝ) : ℝ :=
  if 0 < x then arctan (y / x)
  else if x < 0 then (if 0 ≤ y then arctan (y / x) + π else arctan (y / x) - π)
  else if 0 < y then π / 2
  else if y < 0 then -(π / 2)
  else 0

/-- `sin_dlat = np.sin(np.deg2rad(lat2 - lat1) * 0.5)` (source line 233). -/
def hav_sin_dlat (lat1 lat2 : ℝ) : ℝ := sin (deg2rad (lat2 - lat1) * 0.5)

/-- `sin_dlon = np.sin(np.deg2rad(lon2 - lon1) * 0.5)` (source line 234). -/
def hav_sin_dlon (lon1 lon2 : ℝ) : ℝ := sin (deg2rad (lon2 - lon1) * 0.5)

/-- `a_val = sin_dlon ** 2 * cos_lat1 * cos_lat2 + sin_dlat ** 2`
(source line 237).  No clamping is applied to `a_val` in the source. -/
def hav_a_val (lon1 lat1 lon2 lat2 : ℝ) : ℝ :=
  hav_sin_dlon lon1 lon2 ^ 2 * cos (deg2rad lat1) * cos (deg2rad lat2) +
    hav_sin_dlat lat1 lat2 ^ 2

/-- `haversine_dist`: `c_val = 2 * arctan2(sqrt(a_val), sqrt(1 - a_val))`,
returns `6371315.0 * c_val`. -/
def haversine_dist (lon1 lat1 lon2 lat2 : ℝ) : ℝ :=
  6371315.0 * (2 * arctan2 (sqrt (hav_a_val lon1 lat1 lon2 lat2))
    (sqrt (1 - hav_a_val lon1 lat1 lon2 lat2)))

/-- Claim C8: `haversine_dist(lon, lat, lon, lat) = 0` for every coordinate
pair, and `haversine_dist` is symmetric in its two points. -/
theorem C8_haversine_zero_and_symm :
    (∀ lon lat : ℝ, haversine_dist lon lat lon lat = 0) ∧
    (∀ lon1 lat1 lon2 lat2 : ℝ,
      haversine_dist lon1 lat1 lon2 lat2 = haversine_dist lon2 lat2 lon1 lat1) := by
  constructor
  · intro lon lat
    simp [haversine_dist, hav_a_val, hav_sin_dlat, hav_sin_dlon, deg2rad, arctan2,
      Real.sqrt_zero, Real.sqrt_one, Real.arctan_zero]
  · intro lon1 lat1 lon2 lat2
    have h1 : hav_a_val lon2 lat2 lon1 lat1 = hav_a_val lon1 lat1 lon2 lat2 := by
      simp only [hav_a_val, hav_sin_dlat, hav_sin_dlon, deg2rad]
      rw [show (lat1 - lat2) * (π / 180) * 0.5 = -((lat2 - lat1) * (π / 180) * 0.5) by ring,
        show (lon1 - lon2) * (π / 180) * 0.5 = -((lon2 - lon1) * (π / 180) * 0.5) by ring,
        Real.sin_neg, Real.sin_neg]
      ring
    simp only [haversine_dist, h1]

/-! ### `get_aviso_f_pm_pn` over function-matrices -/

/-- A real-valued matrix as an extent-tagged element function (the flat
storage plays no role in the metric identities). -/
structure RMat where
  m : Nat
  n : Nat
  entry : Nat → Nat → ℝ

/-- `GRAVITY = 9.81` (source line 31). -/
def GRAVITY : ℝ := 9.81

/-- `half_interp(x[:, :-1], x[:, 1:])`: the u-point midpoints. -/
def half_interp_cols (a : RMat) : RMat :=
  ⟨a.m, a.n - 1, fun i j => half_interp (a.entry i j) (a.entry i (j + 1))⟩

/-- `half_interp(x[:-1], x[1:])`: the v-point midpoints. -/
def half_interp_rows (a : RMat) : RMat :=
  ⟨a.m - 1, a.n, fun i j => half_interp (a.entry i j) (a.entry (i + 1) j)⟩

/-- `p_m[:, 1:-1] = haversine_dist(lonu[:, :-1], latu[:, :-1], lonu[:, 1:], latu[:, 1:])`
on `np.zeros_like(lonpad)` (source lines 273-275). -/
def dx_interior (lonpad latpad : RMat) : Nat → Nat → ℝ := fun i j =>
  if 1 ≤ j ∧ j ≤ lonpad.n - 2 then
    haversine_dist ((half_interp_cols lonpad).entry i (j - 1))
      ((half_interp_cols latpad).entry i (j - 1))
      ((half_interp_cols lonpad).entry i j) ((half_interp_cols latpad).entry i j)
  else 0

/-- After the additional `p_m[:, 0] = p_m[:, 1]` (source line 276). -/
def dx_col0 (lonpad latpad : RMat) : Nat → Nat → ℝ := fun i j =>
  if j = 0 then dx_interior lonpad latpad i 1 else dx_interior lonpad latpad i j

/-- After the additional `p_m[:, -1] = p_m[:, -2]` (source line 277). -/
def dx_final (lonpad latpad : RMat) : Nat → Nat → ℝ := fun i j =>
  if j = lonpad.n - 1 then dx_col0 lonpad latpad i (lonpad.n - 2)
  else dx_col0 lonpad latpad i j

/-- `p_n[1:-1] = haversine_dist(lonv[:-1], latv[:-1], lonv[1:], latv[1:])`
(source lines 281-283). -/
def dy_interior (lonpad latpad : RMat) : Nat → Nat → ℝ := fun i j =>
  if 1 ≤ i ∧ i ≤ lonpad.m - 2 then
    haversine_dist ((half_interp_rows lonpad).entry (i - 1) j)
      ((half_interp_rows latpad).entry (i - 1) j)
      ((half_interp_rows lonpad).entry i j) ((half_interp_rows latpad).entry i j)
  else 0

/-- After the additional `p_n[0] = p_n[1]` (source line 284). -/
def dy_row0 (lonpad latpad : RMat) : Nat → Nat → ℝ := fun i j =>
  if i = 0 then dy_interior lonpad latpad 1 j else dy_interior lonpad latpad i j

/-- After the additional `p_n[-1] = p_n[-2]` (source line 285). -/
def dy_final (lonpad latpad : RMat) : Nat → Nat → ℝ := fun i j =>
  if i = lonpad.m - 1 then dy_row0 lonpad latpad (lonpad.m - 2) j
  else dy_row0 lonpad latpad i j

structure AvisoMetrics where
  f_val : RMat
  gof : RMat
  d_x : RMat
  p_m : RMat
  d_y : RMat
  p_n : RMat

/-- `get_aviso_f_pm_pn`: Coriolis `f = sin(deg2rad(latpad)) * 4π / 86400`,
`gof = GRAVITY / f` (pointwise; at zero latitude the real-valued model's
division convention differs from numpy's `inf`, which the `EF` model above
captures), physical spacings `d_x`/`d_y` by haversine distances between
staggered midpoints with edge replication, and `p_m = np.reciprocal(d_x)`,
`p_n = np.reciprocal(d_y)` (pointwise reciprocals). -/
def get_aviso_f_pm_pn (lonpad latpad : RMat) : AvisoMetrics :=
  { f_val := ⟨latpad.m, latpad.n, fun i j => sin (deg2rad (latpad.entry i j)) * 4 * π / 86400⟩
    gof := ⟨latpad.m, latpad.n,
      fun i j => GRAVITY / (sin (deg2rad (latpad.entry i j)) * 4 * π / 86400)⟩
    d_x := ⟨lonpad.m, lonpad.n, dx_final lonpad latpad⟩
    p_m := ⟨lonpad.m, lonpad.n, fun i j => (dx_final lonpad latpad i j)⁻¹⟩
    d_y := ⟨lonpad.m, lonpad.n, dy_final lonpad latpad⟩
    p_n := ⟨lonpad.m, lonpad.n, fun i j => (dy_final lonpad latpad i j)⁻¹⟩ }

/-- Claim C9: after `get_aviso_f_pm_pn` runs, at every grid point where
`d_x` (resp. `d_y`) is strictly positive, `p_m` (resp. `p_n`) is strictly
positive and the product `p_m * d_x` (resp. `p_n * d_y`) equals 1 exactly
(each is stored as the pointwise reciprocal of the other; in exact real
arithmetic the product is exactly 1, which subsumes the claim's floating
tolerance). -/
theorem C9_metrics_reciprocal (lonpad latpad : RMat) :
    (∀ i j, 0 < (get_aviso_f_pm_pn lonpad latpad).d_x.entry i j →
      0 < (get_aviso_f_pm_pn lonpad latpad).p_m.entry i j ∧
      (get_aviso_f_pm_pn lonpad latpad).p_m.entry i j *
        (get_aviso_f_pm_pn lonpad latpad).d_x.entry i j = 1) ∧
    (∀ i j, 0 < (get_aviso_f_pm_pn lonpad latpad).d_y.entry i j →
      0 < (get_aviso_f_pm_pn lonpad latpad).p_n.entry i j ∧
      (get_aviso_f_pm_pn lonpad latpad).p_n.entry i j *
        (get_aviso_f_pm_pn lonpad latpad).d_y.entry i j = 1) := by
  constructor
  · intro i j h
    exact ⟨inv_pos.mpr h, inv_mul_cancel₀ (ne_of_gt h)⟩
  · intro i j h
    exact ⟨inv_pos.mpr h, inv_mul_cancel₀ (ne_of_gt h)⟩

/-- Padded longitudes of a 2 by 3 test window: columns at 0, 90, 180
degrees. -/
def lonW : RMat := ⟨2, 3, fun _ j => if j = 0 then 0 else if j = 1 then 90 else 180⟩

/-- Padded latitudes of the test window: all rows on the equator. -/
def latW : RMat := ⟨2, 3, fun _ _ => 0⟩

theorem haversine_quarter : haversine_dist 45 0 135 0 = 6371315 * (2 * (π / 4)) := by
  have ha : hav_a_val 45 0 135 0 = 1 / 2 := by
    simp only [hav_a_val, hav_sin_dlat, hav_sin_dlon, deg2rad]
    rw [show ((135 : ℝ) - 45) * (π / 180) * 0.5 = π / 4 by ring,
      show ((0 : ℝ) - 0) * (π / 180) * 0.5 = 0 by ring]
    simp [Real.sin_pi_div_four]
    rw [div_pow, Real.sq_sqrt (by norm_num : (0:ℝ) ≤ 2)]
    norm_num
  have hs : (0 : ℝ) < sqrt (1 / 2) := Real.sqrt_pos.mpr (by norm_num)
  simp only [haversine_dist, ha]
  rw [show (1 : ℝ) - 1 / 2 = 1 / 2 by norm_num]
  rw [show arctan2 (sqrt (1 / 2)) (sqrt (1 / 2)) = arctan (sqrt (1 / 2) / sqrt (1 / 2)) from
    if_pos hs]
  rw [div_self (ne_of_gt hs), Real.arctan_one]
  norm_num

/-- Witness for `C9_metrics_reciprocal` at entry `(0, 1)` of the test
window: the spacing is a quarter of the circumference at the equator,
`6371315 * π / 2 > 0`. -/
theorem C9_metrics_reciprocal_witness :
    0 < (get_aviso_f_pm_pn lonW latW).d_x.entry 0 1 ∧
    (0 < (get_aviso_f_pm_pn lonW latW).p_m.entry 0 1 ∧
      (get_aviso_f_pm_pn lonW latW).p_m.entry 0 1 *
        (get_aviso_f_pm_pn lonW latW).d_x.entry 0 1 = 1) := by
  have hent : (get_aviso_f_pm_pn lonW latW).d_x.entry 0 1 = haversine_dist 45 0 135 0 := by
    show dx_final lonW latW 0 1 = _
    norm_num [dx_final, dx_col0, dx_interior, half_interp_cols, half_interp, lonW, latW]
  have hpos : 0 < (get_aviso_f_pm_pn lonW latW).d_x.entry 0 1 := by
    rw [hent, haversine_quarter]
    positivity
  exact ⟨hpos, (C9_metrics_reciprocal lonW latW).1 0 1 hpos⟩

/-! ### the `uspd` property -/

/-- A masked real array: data plus invalid-flag (`True` = masked/invalid,
the numpy.ma convention). -/
structure MaskedRMat where
  data : Nat → Nat → ℝ
  mask : Nat → Nat → Bool

/-- The `uspd` property: `uspd = (u_val ** 2 + v_val ** 2) ** 0.5`; when the
result carries a mask (u/v masked), `uspd.mask += self.mask[self.view_unpad]`
ORs the grid mask restricted to the unpad window into it; otherwise
`uspd = np.ma.array(uspd, mask=self.mask[self.view_unpad])` — the plain case
is the masked case with all-false u/v masks.  Data is computed everywhere
(`x ** 0.5 = sqrt x` on the nonnegative `u² + v²`); masked cells are not
zero-filled. -/
def uspd (u_val v_val : MaskedRMat) (grid_mask_unpad : Nat → Nat → Bool) : MaskedRMat :=
  { data := fun i j => sqrt (u_val.data i j ^ 2 + v_val.data i j ^ 2)
    mask := fun i j => (u_val.mask i j || v_val.mask i j) || grid_mask_unpad i j }

def uValCx : MaskedRMat := ⟨fun _ _ => 3, fun _ _ => false⟩

def vValCx : MaskedRMat := ⟨fun _ _ => 4, fun _ _ => false⟩

/-- Claim C3 (counterexample): a cell whose grid-mask value is 1 (`true`) —
which the spec's stated convention calls a valid ocean cell — and whose
`u`/`v` values are unmasked is nevertheless flagged invalid in `uspd`,
because the code ORs the raw grid mask into the invalid flags.  This refutes
"cells the Grid mask marks as valid ocean are never flagged invalid". -/
theorem C3_counterexample :
    (uspd uValCx vValCx (fun _ _ => true)).mask 0 0 = true ∧
    (uValCx.mask 0 0 || vValCx.mask 0 0) = false :=
  ⟨rfl, rfl⟩

/-- Claim C3 (amended): a cell is flagged invalid in `uspd` exactly when the
grid mask restricted to the unpad window is SET there (value 1 — which the
code therefore treats as invalid/land, the inverse of the spec's stated
"1 = valid ocean" convention) or the underlying `u`/`v` values are masked;
and masked cells keep their computed `sqrt(u² + v²)` data rather than being
zero-filled. -/
theorem C3_uspd_mask (u_val v_val : MaskedRMat) (gm : Nat → Nat → Bool) (i j : Nat) :
    ((uspd u_val v_val gm).mask i j = true ↔
      (gm i j = true ∨ u_val.mask i j = true ∨ v_val.mask i j = true)) ∧
    (uspd u_val v_val gm).data i j = sqrt (u_val.data i j ^ 2 + v_val.data i j ^ 2) := by
  constructor
  · show ((u_val.mask i j || v_val.mask i j) || gm i j) = true ↔ _
    simp [Bool.or_eq_true]
    tauto
  · rfl

end

end PET
